import Mathlib

/-!
Verification development for the two NetExec SMB modules of this repository,
`logon_scripts_enum.py` and `password_spider.py`.

The embedding translates, from the Python source:
* the recursive SMB directory walker `NXCModule._iter_files` (identical in both
  modules up to the path separator handed to the SMB client, which does not
  affect the yielded `(share, relative_path)` pairs),
* the file fetchers `NXCModule._read_file` of both modules,
* the regex battery `_PATTERNS` of `password_spider.py` together with the
  credential-extraction loop of `on_login`,
* the GPO `scripts.ini` extraction site of `logon_scripts_enum.py` — whose
  `re.findall` call raises NameError on every reached file, that module never
  importing `re` — together with the reference extraction the line would
  denote with `re` bound,
* the CSV export logic and the `SAVE` option handling shared by both modules,
* the append-only finding aggregation (`_record` / `_report`).

Remote state (directory listings, file contents, failures of the SMB calls) is
modelled explicitly: a directory entry carries the result of listing it, and a
file carries the outcomes of the SMB read calls that `_read_file` may issue.
Python `re` is modelled by a small backtracking matcher that covers exactly the
regex constructs appearing in the source patterns (case-insensitive literals,
single-character classes under greedy `+` `*` `?`, lazy `.*?`, an optional
literal alternation, and named capture groups over a greedy class `+`),
with candidate alternatives tried in the same priority order as Python `re`.
-/

/-! ## Character and string helpers (ASCII fragment of the Python semantics) -/

/-- ASCII lower-casing of one character, as Python `str.lower` acts on ASCII. -/
def lowerChar (c : Char) : Char :=
  if 'A' ≤ c ∧ c ≤ 'Z' then Char.ofNat (c.toNat + 32) else c

/-- Python `str.lower`, restricted to ASCII. -/
def lowerString (s : String) : String :=
  String.mk (s.data.map lowerChar)

/-- Python `\s` on ASCII text: space, tab, newline, carriage return,
form feed, vertical tab. -/
def isPySpace (c : Char) : Bool :=
  c = ' ' || c = '\t' || c = '\n' || c = '\r' || c = '\x0b' || c = '\x0c'

/-- Python `\w` on ASCII text: letters, digits, underscore. -/
def isPyWord (c : Char) : Bool :=
  c.isAlphanum || c = '_'

/-- Python `str.endswith`. -/
def strEndsWith (s suf : String) : Bool :=
  suf.data.isSuffixOf s.data

/-- `pathlib.Path(name).suffix`: the substring from the last dot of `name`
onwards, provided that dot is neither the first nor the last character;
otherwise the empty string.  (Entry names coming from an SMB listing contain
no path separator, so the `Path(name).name` step is the identity.) -/
def pySuffix (name : String) : String :=
  let cs := name.data
  match cs.reverse.findIdx? (fun c => c == '.') with
  | none => ""
  | some j =>
      let i := cs.length - 1 - j
      if 0 < i ∧ i + 1 < cs.length then String.mk (cs.drop i) else ""

/-- The child path computed by `_iter_files`:
`f"{path}/{name}" if path else name`. -/
def relPath (path name : String) : String :=
  if path = "" then name else path ++ "/" ++ name

/-! ## A backtracking matcher for the regex fragment used by the source -/

/-- Single-character classes occurring in the source patterns. -/
inductive CC : Type where
  | ws : CC
  | nonws : CC
  | wordc : CC
  | anyNoNL : CC
  | oneOf (cs : List Char) : CC
  | notIn (cs : List Char) : CC
deriving DecidableEq

def ccMatch : CC → Char → Bool
  | .ws, c => isPySpace c
  | .nonws, c => !isPySpace c
  | .wordc, c => isPyWord c
  | .anyNoNL, c => !(c = '\n')
  | .oneOf cs, c => cs.contains c
  | .notIn cs, c => !(cs.contains c)

/-- Quantifiers occurring in the source patterns, with their Python
backtracking priority (greedy: longest first; lazy: shortest first). -/
inductive Quant : Type where
  | plusGreedy : Quant
  | starGreedy : Quant
  | starLazy : Quant
  | optGreedy : Quant
deriving DecidableEq

/-- One node of a regex: a case-insensitive literal, a quantified character
class, a named capture group over a greedy `+` of a class (the only group
shape the source uses), or an optional alternation of literals. -/
inductive RE : Type where
  | lit (p : List Char) : RE
  | cls (c : CC) (q : Quant) : RE
  | grp (nm : String) (c : CC) : RE
  | optAlt (alts : List (List Char)) : RE
deriving DecidableEq

/-- Case-insensitive literal prefix stripping (the patterns carry `re.I`). -/
def stripPrefixCI : List Char → List Char → Option (List Char)
  | [], cs => some cs
  | _ :: _, [] => none
  | p :: ps, c :: cs => if lowerChar p = lowerChar c then stripPrefixCI ps cs else none

/-- Length of the maximal run of characters of class `cc` at the head. -/
def runLen (cc : CC) : List Char → Nat
  | [] => 0
  | c :: cs => if ccMatch cc c then runLen cc cs + 1 else 0

/-- The alternatives one node offers at the current input position, in the
priority order Python `re` backtracking explores them; each alternative is the
remaining input together with the capture bindings it contributes. -/
def nodeCands : RE → List Char → List (List Char × List (String × String))
  | .lit p, cs =>
      match stripPrefixCI p cs with
      | some rest => [(rest, [])]
      | none => []
  | .cls cc q, cs =>
      let k := runLen cc cs
      let lens : List Nat :=
        match q with
        | .plusGreedy => (List.range k).map (fun i => k - i)
        | .starGreedy => (List.range (k + 1)).map (fun i => k - i)
        | .starLazy => List.range (k + 1)
        | .optGreedy => if k = 0 then [0] else [1, 0]
      lens.map (fun n => (cs.drop n, []))
  | .grp nm cc, cs =>
      let k := runLen cc cs
      ((List.range k).map (fun i => k - i)).map
        (fun n => (cs.drop n, [(nm, String.mk (cs.take n))]))
  | .optAlt alts, cs =>
      (alts.filterMap (fun a => (stripPrefixCI a cs).map (fun rest => (rest, [])))) ++ [(cs, [])]

/-- First success of `f` over a list of alternatives, in order. -/
def firstSome {α β : Type} : List α → (α → Option β) → Option β
  | [], _ => none
  | a :: as, f =>
      match f a with
      | some b => some b
      | none => firstSome as f

/-- Anchored match of a node sequence at the current position: try each
alternative of the head node in priority order and, for each, the rest of the
sequence — exactly the Python `re` backtracking search.  Returns the remaining
input and the accumulated capture bindings of the first full match. -/
def matchSeq : List RE → List Char → List (String × String) →
    Option (List Char × List (String × String))
  | [], cs, caps => some (cs, caps)
  | r :: rs, cs, caps =>
      firstSome (nodeCands r cs) (fun p => matchSeq rs p.1 (caps ++ p.2))

/-- Scanning loop of `re.finditer` / `re.findall`: try an anchored match at
every position from left to right; a successful match is recorded and scanning
resumes at its end (one position further if the match were empty).  Fuel is
one more than the input length, which the scan never exhausts. -/
def scanAux (p : List RE) : Nat → List Char → List (List Char × List (String × String))
  | 0, _ => []
  | _ + 1, [] =>
      match matchSeq p [] [] with
      | some (_, caps) => [([], caps)]
      | none => []
  | fuel + 1, c :: cs =>
      match matchSeq p (c :: cs) [] with
      | none => scanAux p fuel cs
      | some (rest, caps) =>
          let m := (c :: cs).take ((c :: cs).length - rest.length)
          if rest.length < (c :: cs).length then (m, caps) :: scanAux p fuel rest
          else (m, caps) :: scanAux p fuel cs

/-- `pat.finditer(s)`, returning for each match its matched text and its
capture bindings. -/
def pyFinditer (p : List RE) (s : String) : List (List Char × List (String × String)) :=
  scanAux p (s.data.length + 1) s.data

/-- `re.findall(pat, s)` for a pattern without groups: the matched strings. -/
def pyFindallStr (p : List RE) (s : String) : List String :=
  (pyFinditer p s).map (fun m => String.mk m.1)

/-- `m.groupdict().get(nm, "")`: the captured value of group `nm`, or the
empty string when the pattern has no such group. -/
def capGet (caps : List (String × String)) (nm : String) : String :=
  match caps.lookup nm with
  | some v => v
  | none => ""

/-! ## The source regex patterns (`password_spider._PATTERNS` and the GPO
pattern of `logon_scripts_enum.on_login`) -/

/-- `net\s+use\s+\\\\\S+\s+/user:(?P<user>\S+)\s+(?P<pw>\S+)` with `re.I`. -/
def patNetUse : List RE :=
  [.lit "net".data, .cls .ws .plusGreedy, .lit "use".data, .cls .ws .plusGreedy,
   .lit ['\\', '\\'], .cls .nonws .plusGreedy, .cls .ws .plusGreedy,
   .lit "/user:".data, .grp "user" .nonws, .cls .ws .plusGreedy, .grp "pw" .nonws]

/-- `-AsPlainText\s+(?P<pw>\S+)` with `re.I`. -/
def patAsPlainText : List RE :=
  [.lit "-AsPlainText".data, .cls .ws .plusGreedy, .grp "pw" .nonws]

/-- `\$?user\s*=\s*['\"]?(?P<user>[^'\"\r\n]+)` with `re.I`. -/
def patUserAssign : List RE :=
  [.cls (.oneOf ['$']) .optGreedy, .lit "user".data, .cls .ws .starGreedy,
   .lit "=".data, .cls .ws .starGreedy, .cls (.oneOf ['\'', '"']) .optGreedy,
   .grp "user" (.notIn ['\'', '"', '\r', '\n'])]

/-- `\$?pass(?:word|wd)?\s*=\s*['\"]?(?P<pw>[^'\"\r\n]+)` with `re.I`. -/
def patPassAssign : List RE :=
  [.cls (.oneOf ['$']) .optGreedy, .lit "pass".data, .optAlt ["word".data, "wd".data],
   .cls .ws .starGreedy, .lit "=".data, .cls .ws .starGreedy,
   .cls (.oneOf ['\'', '"']) .optGreedy, .grp "pw" (.notIn ['\'', '"', '\r', '\n'])]

/-- `password_spider._PATTERNS`, in source order. -/
def credPatterns : List (List RE) :=
  [patNetUse, patAsPlainText, patUserAssign, patPassAssign]

/-- `\\\\.*?\.\w+` with `re.I`: the GPO UNC-path pattern of
`logon_scripts_enum.on_login`. -/
def gpoPattern : List RE :=
  [.lit ['\\', '\\'], .cls .anyNoNL .starLazy, .lit ".".data, .cls .wordc .plusGreedy]

/-- The credential-extraction loop of `password_spider.on_login` over one
file text: for every pattern of the battery, for every match, the pair
`(m.groupdict().get("user", ""), m.groupdict().get("pw", ""))`. -/
def extractCreds (data : String) : List (String × String) :=
  credPatterns.flatMap
    (fun pat => (pyFinditer pat data).map (fun m => (capGet m.2 "user", capGet m.2 "pw")))

/-- The value `set(re.findall(r"\\\\.*?\.\w+", data, flags=re.I))` in
`logon_scripts_enum.on_login` would denote with the name `re` bound: the
matches of the GPO pattern with exact duplicate strings collapsed (Python set
semantics; the set order is unspecified, so the model keeps a deduplicated
list).  In the module as written the name `re` is unbound — see
`enumGpoLine` for what the line actually does. -/
def gpoRefs (data : String) : List String :=
  (pyFindallStr gpoPattern data).dedup

/-- The GPO extraction line of `logon_scripts_enum.on_login` as the module
actually executes it: `logon_scripts_enum.py` never imports `re`, so
evaluating `re.findall(...)` raises NameError before any reference is
produced, whatever the file text.  The error value models the raised
exception. -/
def enumGpoLine (_data : String) : Except String (List String) :=
  Except.error "NameError: name re is not defined"

/-! ## The remote file store model and `_read_file` -/

/-- Outcomes of the SMB calls `_read_file` may issue on one file.
`none` models the call raising; byte contents are lists of byte values. -/
structure FileBeh : Type where
  getFileRes : Option (List Nat)
  openRes : Option Nat
  readRes : Option (List Nat)
  closeOk : Bool
deriving DecidableEq

/-- `bytes.decode(errors="ignore")`, restricted to the ASCII fragment:
bytes below 128 decode to the corresponding character, others are dropped
(the lenient decode never raises). -/
def decodeIgnore (bs : List Nat) : String :=
  String.mk (bs.filterMap (fun b => if b < 128 then some (Char.ofNat b) else none))

/-- `password_spider.NXCModule._read_file`: primary strategy is the streamed
`smb.getFile` into a `BytesIO` buffer; on failure, fall back to
`openFile(desired_access=0x80)` / `readFile` / `closeFile` (all inside the
fallback `try`, so a failing close also yields the empty string); if both
strategies fail, return the empty string. -/
def ps_read_file (b : FileBeh) : String :=
  match b.getFileRes with
  | some data => decodeIgnore data
  | none =>
      match b.openRes with
      | none => ""
      | some _ =>
          match b.readRes with
          | none => ""
          | some data => if b.closeOk then decodeIgnore data else ""

/-- `logon_scripts_enum.NXCModule._read_file`: a single `try` around
`openFile(desired_access=0x80)` / `readFile` / `closeFile` with decode;
any failure yields the empty string.  Note: no streamed primary strategy. -/
def enum_read_file (b : FileBeh) : String :=
  match b.openRes with
  | none => ""
  | some _ =>
      match b.readRes with
      | none => ""
      | some data => if b.closeOk then decodeIgnore data else ""

/-- Modelled from the spec: the fetcher the specification describes — first a
whole-file streamed retrieval, on its failure an open/read/close sequence, and
the empty text when both strategies fail. -/
def specFetch (b : FileBeh) : String :=
  match b.getFileRes with
  | some data => decodeIgnore data
  | none =>
      match b.openRes, b.readRes, b.closeOk with
      | some _, some data, true => decodeIgnore data
      | _, _, _ => ""

/-- A file behaviour on which every SMB call fails. -/
def fbFail : FileBeh := ⟨none, none, none, false⟩

/-! ## The remote directory tree model and `_iter_files` -/

/-!
A remote directory entry as the walker sees it, together with the remote
state behind it: a file carries the outcomes of the read calls on it, and a
directory carries the outcome of the `listPath` call on its path.
`Listing.fail` models that call raising (access denied, path not found,
transport error); `Listing.ok` carries the returned entries in listing
order.
-/

mutual

inductive Entry : Type where
  | file (name : String) (beh : FileBeh) : Entry
  | dir (name : String) (listing : Listing) : Entry

inductive Listing : Type where
  | fail : Listing
  | ok (entries : EntryList) : Listing

inductive EntryList : Type where
  | nil : EntryList
  | cons (e : Entry) (es : EntryList) : EntryList

end

/-- Concatenation of entry lists (used to state sibling isolation). -/
def EntryList.append : EntryList → EntryList → EntryList
  | .nil, l => l
  | .cons e es, l => .cons e (es.append l)

instance : Append EntryList := ⟨EntryList.append⟩

mutual

/-- The body of the `for entry in dir_list` loop of `_iter_files` for one
entry: skip entries named `.` or `..`; for a directory, recurse with the
child path (the recursive `_iter_files` call performs the `listPath` call
whose outcome the entry carries); for a file, yield `(share, rel_path)` when
`Path(name).suffix.lower()` lies in `exts`. -/
def iterEntry (share : String) (exts : List String) (path : String) :
    Entry → List (String × String)
  | .file name _ =>
      if name = "." ∨ name = ".." then []
      else if lowerString (pySuffix name) ∈ exts then [(share, relPath path name)] else []
  | .dir name listing =>
      if name = "." ∨ name = ".." then []
      else iterListing share exts (relPath path name) listing

/-- `NXCModule._iter_files(smb, share, path, exts)` (identical in both
modules): on a raising `listPath` yield nothing (`return []` inside the
generator), otherwise run the entry loop over the listing. -/
def iterListing (share : String) (exts : List String) (path : String) :
    Listing → List (String × String)
  | .fail => []
  | .ok entries => iterEntries share exts path entries

/-- The `for entry in dir_list` loop over a successful listing, in listing
order (the generator yield order of the source). -/
def iterEntries (share : String) (exts : List String) (path : String) :
    EntryList → List (String × String)
  | .nil => []
  | .cons e es => iterEntry share exts path e ++ iterEntries share exts path es

end

/-- `NXCModule._iter_files` at the walk root, as a plain list of the yielded
`(share, relative_path)` pairs. -/
def iter_files (share path : String) (exts : List String) (listing : Listing) :
    List (String × String) :=
  iterListing share exts path listing

mutual

/-- Number of walker-reachable matching files behind one entry: files whose
name is not `.`/`..` and whose lowered suffix lies in `exts`.  Entries named
`.`/`..` are skipped by the walker and hence unreachable, as is anything
behind a failed listing. -/
def countEntry (exts : List String) : Entry → Nat
  | .file name _ =>
      if name = "." ∨ name = ".." then 0
      else if lowerString (pySuffix name) ∈ exts then 1 else 0
  | .dir name listing =>
      if name = "." ∨ name = ".." then 0
      else countListing exts listing

def countListing (exts : List String) : Listing → Nat
  | .fail => 0
  | .ok entries => countEntries exts entries

def countEntries (exts : List String) : EntryList → Nat
  | .nil => 0
  | .cons e es => countEntry exts e + countEntries exts es

end

mutual

/-- Every `listPath` call the walker performs behind this entry succeeds
(entries named `.`/`..` are skipped, so their listings are never requested). -/
def allOkEntry : Entry → Bool
  | .file _ _ => true
  | .dir name listing =>
      if name = "." ∨ name = ".." then true
      else allOkListing listing

def allOkListing : Listing → Bool
  | .fail => false
  | .ok entries => allOkEntries entries

def allOkEntries : EntryList → Bool
  | .nil => true
  | .cons e es => allOkEntry e && allOkEntries es

end

/-- An SMB file or directory name contains no `/` (true of every name a real
SMB listing can return). -/
def noSlashName (name : String) : Bool :=
  !(name.data.contains '/')

mutual

def noSlashEntry : Entry → Bool
  | .file name _ => noSlashName name
  | .dir name listing => noSlashName name && noSlashListing listing

def noSlashListing : Listing → Bool
  | .fail => true
  | .ok entries => noSlashEntries entries

def noSlashEntries : EntryList → Bool
  | .nil => true
  | .cons e es => noSlashEntry e && noSlashEntries es

end

/-! ## Path segments -/

/-- The `/`-separated segments of a character list (the empty list has the
single empty segment, mirroring `"".split("/")`). -/
def splitSlash : List Char → List (List Char)
  | [] => [[]]
  | c :: cs =>
      if c = '/' then [] :: splitSlash cs
      else
        match splitSlash cs with
        | [] => [[c]]
        | s :: ss => (c :: s) :: ss

/-- No `/`-separated segment of the string is `.` or `..`. -/
def noDotSegs (s : String) : Bool :=
  (splitSlash s.data).all (fun seg => !(seg == ['.']) && !(seg == ['.', '.']))

/-! ## CSV export and the `SAVE` option -/

/-- `csv.DictWriter` row serialization: the value written under one field
name (`rowdict.get(key)`; every row the modules build carries every field). -/
def lookupField (row : List (String × String)) (k : String) : String :=
  match row.lookup k with
  | some v => v
  | none => ""

/-- The export file the `on_login` CSV block produces: its path, its header
row, and its data rows. -/
structure CsvOut : Type where
  path : String
  header : List String
  dataRows : List (List String)
deriving DecidableEq

/-- The CSV block at the end of `on_login` (identical shape in both modules):
`if self.save_dir and self.csv_rows:` open `save_dir / fname`, write a header
equal to the field names of the first row, then one data row per accumulated
row.  Returns `none` when no file is created. -/
def exportCSV (save_dir : Option String) (fname : String)
    (rows : List (List (String × String))) : Option CsvOut :=
  match save_dir with
  | none => none
  | some d =>
      match rows with
      | [] => none
      | r :: rs =>
          let hdr := r.map Prod.fst
          some ⟨d ++ "/" ++ fname, hdr,
                (r :: rs).map (fun row => hdr.map (fun k => lookupField row k))⟩

/-- `NXCModule.options` (identical in both modules): `save_dir` is set exactly
when the `SAVE` option is present and truthy (a non-empty string).  The
`expanduser().resolve()` path normalization is not modelled. -/
def optionsSaveDir (saveOpt : Option String) : Option String :=
  match saveOpt with
  | none => none
  | some s => if s = "" then none else some s

/-- The filesystem effects of one run of `options` + the export block of
`on_login`: `mkdirAt` is the directory `options` creates with
`mkdir(parents=True, exist_ok=True)` (`none`: no directory created), and
`written` is the export file the CSV block writes. -/
structure FsEffects : Type where
  mkdirAt : Option String
  written : Option CsvOut
deriving DecidableEq

/-- One run of the export machinery: `options` creates the save directory as
soon as `SAVE` is set, and the CSV block then writes the file only when at
least one row accumulated. -/
def runEffects (saveOpt : Option String) (fname : String)
    (rows : List (List (String × String))) : FsEffects :=
  ⟨optionsSaveDir saveOpt, exportCSV (optionsSaveDir saveOpt) fname rows⟩

/-- The untouched filesystem. -/
def noEffects : FsEffects := ⟨none, none⟩

/-! ## The two module pipelines (`on_login` and the aggregators) -/

/-- `connection.domain or connection.hostname or connection.host`
(Python `or` chain over possibly empty strings). -/
def resolveDomain (domain hostname host : String) : String :=
  if domain ≠ "" then domain else if hostname ≠ "" then hostname else host

/-- The script extension selector shared by both modules
(`exts` in `logon_scripts_enum.on_login`, `_EXTS` in `password_spider`). -/
def scriptExts : List String :=
  [".bat", ".cmd", ".ps1", ".vbs", ".kix"]

/-- One credential finding of `password_spider` (`_report` row). -/
structure Finding : Type where
  file : String
  user : String
  pw : String
deriving DecidableEq

/-- `f"//{connection.hostname}/{share}/{PurePosixPath(rel_path)}"` of
`_report` (`PurePosixPath` is the identity on the already normalized
slash-separated relative paths the walker yields). -/
def linuxPath (hostname share rel : String) : String :=
  "//" ++ hostname ++ "/" ++ share ++ "/" ++ rel

/-- The remote state one `password_spider.on_login` run sees. -/
structure SpiderEnv : Type where
  domain : String
  hostname : String
  host : String
  listing : Listing
  readBeh : String → String → FileBeh

/-- The findings one `password_spider.on_login` run discovers, in discovery
order: walk `SYSVOL/<domain>/scripts` with the script extensions, fetch each
file, skip empty text, and run the credential battery on the rest. -/
def spiderNewFindings (env : SpiderEnv) : List Finding :=
  let domain := resolveDomain env.domain env.hostname env.host
  let share := "SYSVOL"
  let root := domain ++ "/scripts"
  (iter_files share root scriptExts env.listing).flatMap (fun p =>
    let data := ps_read_file (env.readBeh p.1 p.2)
    if data = "" then []
    else (extractCreds data).map (fun c => ⟨linuxPath env.hostname p.1 p.2, c.1, c.2⟩))

/-- `_report`: append one finding to `self.findings`. -/
def reportStep (st : List Finding) (f : Finding) : List Finding := st ++ [f]

/-- `password_spider.on_login` as a transformer of the instance state
`self.findings`: every discovered finding is appended via `_report`. -/
def spider_on_login (st : List Finding) (env : SpiderEnv) : List Finding :=
  (spiderNewFindings env).foldl reportStep st

/-- `self.findings` right after `__init__`. -/
def spiderInit : List Finding := []

/-- One CSV row of `logon_scripts_enum` (`_record` row). -/
structure CsvRow : Type where
  rtype : String
  share : String
  path : String
  extra : String
deriving DecidableEq

/-- The remote state one `logon_scripts_enum.on_login` run sees. -/
structure EnumEnv : Type where
  domain : String
  hostname : String
  host : String
  scriptsListing : Listing
  policiesListing : Listing
  readBeh : String → String → FileBeh

/-- The rows one `logon_scripts_enum.on_login` run actually records, in
discovery order: one `LogonScript` row per walked script file of
`SYSVOL/<domain>/scripts` — and nothing else.  The GPO phase can never record
a `GpoScriptRef` row: for every `.ini` file below `SYSVOL/<domain>/Policies`
whose lowered path ends in `scripts.ini`, evaluating `re.findall` raises
NameError (`enumGpoLine`) before the recording loop body runs, and files with
other names are skipped without recording. -/
def enumNewRows (env : EnumEnv) : List CsvRow :=
  let domain := resolveDomain env.domain env.hostname env.host
  (iter_files "SYSVOL" (domain ++ "/scripts") scriptExts
      env.scriptsListing).map (fun p => CsvRow.mk "LogonScript" p.1 p.2 "")

/-- Whether the GPO phase of one run reaches a file whose lowered path ends
in `scripts.ini` — the point at which `on_login` raises NameError at the
unresolved `re`. -/
def enumScriptsIniReached (env : EnumEnv) : Bool :=
  (iter_files "SYSVOL"
      ((resolveDomain env.domain env.hostname env.host) ++ "/Policies")
      [".ini"] env.policiesListing).any
    (fun p => strEndsWith (lowerString p.2) "scripts.ini")

/-- `_record`: append one row to `self.csv_rows`. -/
def recordStep (st : List CsvRow) (r : CsvRow) : List CsvRow := st ++ [r]

/-- The outcome of one `logon_scripts_enum.on_login` call: the instance
state `self.csv_rows` after the call, and whether the call raised — the
NameError at the unresolved `re`, which propagates to the caller, so the CSV
export block of that run is never reached. -/
structure EnumRun : Type where
  rows : List CsvRow
  raised : Bool

/-- `logon_scripts_enum.on_login` as a transformer of the instance state
`self.csv_rows`: phase 1 appends its `LogonScript` rows via `_record`; the
GPO phase then either completes without recording anything (no `scripts.ini`
reached) or raises at the first one — in both cases the instance state holds
exactly the phase-1 rows appended to the prior state. -/
def enum_on_login (st : List CsvRow) (env : EnumEnv) : EnumRun :=
  ⟨(enumNewRows env).foldl recordStep st, enumScriptsIniReached env⟩

/-- `self.csv_rows` right after `__init__`. -/
def enumInit : List CsvRow := []

/-! ## Helper lemmas -/

theorem splitSlash_ne_nil (cs : List Char) : splitSlash cs ≠ [] := by
  induction cs with
  | nil => simp [splitSlash]
  | cons c cs ih =>
      simp only [splitSlash]
      split
      · simp
      · cases h : splitSlash cs with
        | nil => simp
        | cons s ss => simp

theorem splitSlash_append (as bs : List Char) :
    splitSlash (as ++ '/' :: bs) = splitSlash as ++ splitSlash bs := by
  induction as with
  | nil => simp [splitSlash]
  | cons c as ih =>
      by_cases hc : c = '/'
      · subst hc
        simp [splitSlash, List.append_eq, ih]
      · simp only [List.cons_append, splitSlash, if_neg hc, List.append_eq]
        rw [ih]
        cases h : splitSlash as with
        | nil => exact absurd h (splitSlash_ne_nil as)
        | cons s ss => rfl

theorem splitSlash_no_slash (cs : List Char) (h : '/' ∉ cs) : splitSlash cs = [cs] := by
  induction cs with
  | nil => rfl
  | cons c cs ih =>
      simp only [List.mem_cons, not_or] at h
      have hc : ¬(c = '/') := fun hh => h.1 hh.symm
      simp only [splitSlash, if_neg hc, ih h.2]

theorem noDotSegs_relPath (path name : String)
    (hp : noDotSegs path = true) (hn : noSlashName name = true)
    (h1 : name ≠ ".") (h2 : name ≠ "..") :
    noDotSegs (relPath path name) = true := by
  have hslash : '/' ∉ name.data := by
    simpa [noSlashName] using hn
  have hname1 : name.data ≠ ['.'] := by
    intro h
    exact h1 (String.ext h)
  have hname2 : name.data ≠ ['.', '.'] := by
    intro h
    exact h2 (String.ext h)
  unfold relPath
  by_cases hpath : path = ""
  · simp only [if_pos hpath, noDotSegs, splitSlash_no_slash name.data hslash]
    simp [hname1, hname2]
  · simp only [if_neg hpath]
    have hdata : (path ++ "/" ++ name).data = path.data ++ '/' :: name.data := by
      simp [String.data_append]
    simp only [noDotSegs, hdata, splitSlash_append,
      splitSlash_no_slash name.data hslash, List.all_append, Bool.and_eq_true]
    refine ⟨by simpa [noDotSegs] using hp, by simp [hname1, hname2]⟩

theorem iterEntries_append (share : String) (exts : List String) (path : String) :
    ∀ (l1 l2 : EntryList),
      iterEntries share exts path (l1 ++ l2)
        = iterEntries share exts path l1 ++ iterEntries share exts path l2
  | .nil, l2 => by
      show iterEntries share exts path (EntryList.append .nil l2) = _
      simp [EntryList.append, iterEntries]
  | .cons e es, l2 => by
      show iterEntries share exts path (EntryList.append (.cons e es) l2) = _
      have ih : iterEntries share exts path (EntryList.append es l2)
          = iterEntries share exts path es ++ iterEntries share exts path l2 :=
        iterEntries_append share exts path es l2
      simp [EntryList.append, iterEntries, ih]

theorem iterEntry_dir_fail (share : String) (exts : List String) (path n : String) :
    iterEntry share exts path (Entry.dir n Listing.fail) = [] := by
  by_cases h : n = "." ∨ n = ".."
  · simp [iterEntry, h]
  · simp [iterEntry, h, iterListing]

theorem foldl_reportStep (l : List Finding) (st : List Finding) :
    l.foldl reportStep st = st ++ l := by
  induction l generalizing st with
  | nil => simp
  | cons f fs ih => simp [reportStep, ih]

theorem foldl_recordStep (l : List CsvRow) (st : List CsvRow) :
    l.foldl recordStep st = st ++ l := by
  induction l generalizing st with
  | nil => simp
  | cons f fs ih => simp [recordStep, ih]

mutual

theorem iterEntry_length (share : String) (exts : List String) :
    ∀ (path : String) (e : Entry), allOkEntry e = true →
      (iterEntry share exts path e).length = countEntry exts e
  | path, .file name beh, _ => by
      by_cases h : name = "." ∨ name = ".."
      · simp [iterEntry, countEntry, h]
      · by_cases hm : lowerString (pySuffix name) ∈ exts
        · simp [iterEntry, countEntry, h, hm]
        · simp [iterEntry, countEntry, h, hm]
  | path, .dir name listing, hok => by
      by_cases h : name = "." ∨ name = ".."
      · simp [iterEntry, countEntry, h]
      · have hc : allOkListing listing = true := by
          simpa [allOkEntry, h] using hok
        simpa [iterEntry, countEntry, h] using
          iterListing_length share exts (relPath path name) listing hc

theorem iterListing_length (share : String) (exts : List String) :
    ∀ (path : String) (l : Listing), allOkListing l = true →
      (iterListing share exts path l).length = countListing exts l
  | _, .fail, h => by simp [allOkListing] at h
  | path, .ok entries, h => by
      simpa [iterListing, countListing] using
        iterEntries_length share exts path entries (by simpa [allOkListing] using h)

theorem iterEntries_length (share : String) (exts : List String) :
    ∀ (path : String) (es : EntryList), allOkEntries es = true →
      (iterEntries share exts path es).length = countEntries exts es
  | _, .nil, _ => rfl
  | path, .cons e es, hok => by
      have h12 : allOkEntry e = true ∧ allOkEntries es = true := by
        simpa [allOkEntries, Bool.and_eq_true] using hok
      simp [iterEntries, countEntries, iterEntry_length share exts path e h12.1,
        iterEntries_length share exts path es h12.2]

end

mutual

theorem iterEntry_share (share : String) (exts : List String) :
    ∀ (path : String) (e : Entry) (p : String × String),
      p ∈ iterEntry share exts path e → p.1 = share
  | path, .file name beh, p, hp => by
      by_cases h : name = "." ∨ name = ".."
      · simp [iterEntry, h] at hp
      · by_cases hm : lowerString (pySuffix name) ∈ exts
        · simp only [iterEntry, if_neg h, if_pos hm, List.mem_singleton] at hp
          simp [hp]
        · simp [iterEntry, h, hm] at hp
  | path, .dir name listing, p, hp => by
      by_cases h : name = "." ∨ name = ".."
      · simp [iterEntry, h] at hp
      · exact iterListing_share share exts (relPath path name) listing p
          (by simpa [iterEntry, h] using hp)

theorem iterListing_share (share : String) (exts : List String) :
    ∀ (path : String) (l : Listing) (p : String × String),
      p ∈ iterListing share exts path l → p.1 = share
  | _, .fail, p, hp => by simp [iterListing] at hp
  | path, .ok entries, p, hp => by
      exact iterEntries_share share exts path entries p (by simpa [iterListing] using hp)

theorem iterEntries_share (share : String) (exts : List String) :
    ∀ (path : String) (es : EntryList) (p : String × String),
      p ∈ iterEntries share exts path es → p.1 = share
  | _, .nil, p, hp => by simp [iterEntries] at hp
  | path, .cons e es, p, hp => by
      rcases (List.mem_append.mp (by simpa [iterEntries] using hp)) with h | h
      · exact iterEntry_share share exts path e p h
      · exact iterEntries_share share exts path es p h

end

mutual

theorem iterEntry_noDot (share : String) (exts : List String) :
    ∀ (path : String) (e : Entry), noDotSegs path = true → noSlashEntry e = true →
      ∀ p ∈ iterEntry share exts path e, noDotSegs p.2 = true
  | path, .file name beh, hpath, hsl, p, hp => by
      by_cases h : name = "." ∨ name = ".."
      · simp [iterEntry, h] at hp
      · by_cases hm : lowerString (pySuffix name) ∈ exts
        · simp only [iterEntry, if_neg h, if_pos hm, List.mem_singleton] at hp
          subst hp
          exact noDotSegs_relPath path name hpath (by simpa [noSlashEntry] using hsl)
            (fun hh => h (Or.inl hh)) (fun hh => h (Or.inr hh))
        · simp [iterEntry, h, hm] at hp
  | path, .dir name listing, hpath, hsl, p, hp => by
      by_cases h : name = "." ∨ name = ".."
      · simp [iterEntry, h] at hp
      · have hsl' : noSlashName name = true ∧ noSlashListing listing = true := by
          simpa [noSlashEntry, Bool.and_eq_true] using hsl
        have hpath' : noDotSegs (relPath path name) = true :=
          noDotSegs_relPath path name hpath hsl'.1
            (fun hh => h (Or.inl hh)) (fun hh => h (Or.inr hh))
        exact iterListing_noDot share exts (relPath path name) listing hpath' hsl'.2 p
          (by simpa [iterEntry, h] using hp)

theorem iterListing_noDot (share : String) (exts : List String) :
    ∀ (path : String) (l : Listing), noDotSegs path = true → noSlashListing l = true →
      ∀ p ∈ iterListing share exts path l, noDotSegs p.2 = true
  | _, .fail, _, _, p, hp => by simp [iterListing] at hp
  | path, .ok entries, hpath, hsl, p, hp => by
      exact iterEntries_noDot share exts path entries hpath
        (by simpa [noSlashListing] using hsl) p (by simpa [iterListing] using hp)

theorem iterEntries_noDot (share : String) (exts : List String) :
    ∀ (path : String) (es : EntryList), noDotSegs path = true → noSlashEntries es = true →
      ∀ p ∈ iterEntries share exts path es, noDotSegs p.2 = true
  | _, .nil, _, _, p, hp => by simp [iterEntries] at hp
  | path, .cons e es, hpath, hsl, p, hp => by
      have hsl' : noSlashEntry e = true ∧ noSlashEntries es = true := by
        simpa [noSlashEntries, Bool.and_eq_true] using hsl
      rcases (List.mem_append.mp (by simpa [iterEntries] using hp)) with h | h
      · exact iterEntry_noDot share exts path e hpath hsl'.1 p h
      · exact iterEntries_noDot share exts path es hpath hsl'.2 p h

end

theorem pySuffix_no_dot (name : String) (h : '.' ∉ name.data) : pySuffix name = "" := by
  unfold pySuffix
  have hnone : name.data.reverse.findIdx? (fun c => c == '.') = none := by
    rw [List.findIdx?_eq_none_iff]
    intro c hc
    have : c ∈ name.data := List.mem_reverse.mp hc
    have hne : c ≠ '.' := fun he => h (he ▸ this)
    simpa using hne
  simp [hnone]

/-! ## A sample remote tree used by the witnesses -/

/-- A concrete tree: two matching script files (one of them nested, one with
upper-case extension), one non-matching file, a file with no extension, a
file entry named `.` and a directory entry named `..` whose listing would
fail — but is never requested since the walker skips it. -/
def egTree : Listing :=
  .ok (.cons (.file "a.bat" fbFail)
    (.cons (.file "." fbFail)
      (.cons (.dir "sub" (.ok (.cons (.file "b.PS1" fbFail)
                            (.cons (.file "c.txt" fbFail)
                              (.cons (.dir ".." .fail) .nil)))))
        (.cons (.file "noext" fbFail) .nil))))

/-! ## The claims -/

/-- Claim C1: over every directory tree reachable from the walk root in which
every listing call succeeds, the walker `_iter_files` yields exactly one
`(share, relativePath)` pair per matching file — the number of yielded pairs
equals the number of walker-reachable matching files, regardless of tree
depth or branching factor, and every yielded pair carries the walked share. -/
theorem walker_yields_exactly_matching_files (share path : String)
    (exts : List String) (listing : Listing) (h : allOkListing listing = true) :
    (iter_files share path exts listing).length = countListing exts listing ∧
    ∀ p ∈ iter_files share path exts listing, p.1 = share :=
  ⟨iterListing_length share exts path listing h,
   fun p hp => iterListing_share share exts path listing p hp⟩

/-- Witness for C1 on the sample tree: its two listings succeed and the
walk yields exactly its two matching files. -/
theorem walker_yields_exactly_matching_files_witness :
    allOkListing egTree = true ∧
    ((iter_files "SYSVOL" "corp/scripts" [".bat", ".ps1"] egTree).length
        = countListing [".bat", ".ps1"] egTree ∧
      ∀ p ∈ iter_files "SYSVOL" "corp/scripts" [".bat", ".ps1"] egTree,
        p.1 = "SYSVOL") :=
  ⟨by decide,
   walker_yields_exactly_matching_files "SYSVOL" "corp/scripts" [".bat", ".ps1"]
     egTree (by decide)⟩

/-- Claim C2: a directory whose listing call raises contributes the empty
sequence — the walker catches the error instead of propagating it — and a
failing subtree sitting anywhere between siblings removes nothing from what
the surrounding entries of the same listing yield. -/
theorem failing_subtree_is_isolated (share path : String) (exts : List String)
    (n : String) (l1 l2 : EntryList) :
    iterEntry share exts path (Entry.dir n Listing.fail) = [] ∧
    iter_files share path exts (.ok (l1 ++ EntryList.cons (.dir n .fail) l2))
      = iter_files share path exts (.ok l1) ++ iter_files share path exts (.ok l2) := by
  constructor
  · exact iterEntry_dir_fail share exts path n
  · show iterEntries share exts path (l1 ++ EntryList.cons (.dir n .fail) l2) = _
    rw [iterEntries_append]
    simp [iter_files, iterListing, iterEntries, iterEntry_dir_fail]

/-- A file behaviour on which the primary streamed retrieval would succeed
(with the ASCII bytes of `hi`) while the open/read/close fallback fails. -/
def cexBeh : FileBeh := ⟨some [104, 105], none, none, false⟩

/-- Counterexample to claim C3 as stated for `logon_scripts_enum._read_file`:
on a file whose streamed whole-file retrieval succeeds with the text `hi`
while the open call fails, a fetcher following the claimed strategy order
returns `hi` (as `password_spider._read_file` indeed does), but
`logon_scripts_enum._read_file` returns the empty text — it never attempts
the primary streamed strategy. -/
theorem read_file_no_primary_in_enum :
    enum_read_file cexBeh = "" ∧ specFetch cexBeh = "hi" ∧
    ps_read_file cexBeh = "hi" ∧ enum_read_file cexBeh ≠ specFetch cexBeh := by
  refine ⟨rfl, by decide, by decide, ?_⟩
  decide

/-- Claim C3 as amended: neither fetcher ever raises (both are total
functions of the remote call outcomes); `password_spider._read_file` follows
exactly the claimed strategy order — primary streamed retrieval, then the
open/read/close fallback with explicit read-data access, then the empty
text — while `logon_scripts_enum._read_file` behaves like that fetcher with
the primary strategy unavailable; and when both strategies fail, both
fetchers return the empty text. -/
theorem read_file_strategies (b : FileBeh) :
    ps_read_file b = specFetch b ∧
    enum_read_file b = specFetch ⟨none, b.openRes, b.readRes, b.closeOk⟩ ∧
    (b.getFileRes = none → b.openRes = none →
      ps_read_file b = "" ∧ enum_read_file b = "") := by
  rcases b with ⟨g, o, r, c⟩
  cases g <;> cases o <;> cases r <;> cases c <;>
    simp [ps_read_file, enum_read_file, specFetch]

/-- Witness for C3 (amended) at the all-failing behaviour: both fetchers
return the empty text. -/
theorem read_file_strategies_witness :
    ps_read_file fbFail = specFetch fbFail ∧
    enum_read_file fbFail = specFetch ⟨none, fbFail.openRes, fbFail.readRes, fbFail.closeOk⟩ ∧
    (ps_read_file fbFail = "" ∧ enum_read_file fbFail = "") :=
  ⟨(read_file_strategies fbFail).1, (read_file_strategies fbFail).2.1,
   (read_file_strategies fbFail).2.2 rfl rfl⟩

/-- Claim C4: on the fixed text `net use \\srv\share /user:alice Secr3t!`
the credential battery emits exactly one finding, with user `alice` and
password `Secr3t!` (the other three patterns do not match this text). -/
theorem net_use_line_single_finding :
    extractCreds "net use \\\\srv\\share /user:alice Secr3t!"
      = [("alice", "Secr3t!")] := by
  decide

/-- Claim C5: the export block is a no-op on an empty accumulated list (no
file object is produced, in particular no empty one) — also when the save
directory is unset — and on a non-empty list it produces exactly one file
whose header row is the field names of the first finding and which carries
one data row per accumulated finding, in discovery order. -/
theorem export_block_shape (dOpt : Option String) (d fname : String)
    (r : List (String × String)) (rs : List (List (String × String))) :
    exportCSV dOpt fname [] = none ∧
    exportCSV none fname (r :: rs) = none ∧
    ∃ out, exportCSV (some d) fname (r :: rs) = some out ∧
      out.header = r.map Prod.fst ∧
      out.dataRows.length = (r :: rs).length ∧
      out.dataRows
        = (r :: rs).map (fun row => (r.map Prod.fst).map (fun k => lookupField row k)) := by
  refine ⟨by cases dOpt <;> rfl, rfl, ⟨_, rfl, rfl, by simp [exportCSV], rfl⟩⟩

/-- Counterexample to claim C6 as stated: in a run with the `SAVE` option set
and zero findings the filesystem is not left unchanged — `options` already
created the export directory — even though no export file is written. -/
theorem export_dir_created_despite_no_findings :
    runEffects (some "loot") "credentials.csv" [] ≠ noEffects ∧
    (runEffects (some "loot") "credentials.csv" []).mkdirAt = some "loot" ∧
    (runEffects (some "loot") "credentials.csv" []).written = none := by
  refine ⟨by decide, rfl, rfl⟩

/-- Claim C6 as amended: the export directory (with its parents) is created
exactly when the `SAVE` option is set to a non-empty value — eagerly, at
option-processing time, regardless of the number of findings; with `SAVE`
absent the export machinery leaves the filesystem unchanged; and the export
file itself is written exactly when `SAVE` is set and at least one finding
exists. -/
theorem export_dir_creation (saveOpt : Option String) (fname : String)
    (rows : List (List (String × String))) :
    (runEffects saveOpt fname rows).mkdirAt = optionsSaveDir saveOpt ∧
    runEffects none fname rows = noEffects ∧
    ((runEffects saveOpt fname rows).written ≠ none
      ↔ optionsSaveDir saveOpt ≠ none ∧ rows ≠ []) := by
  refine ⟨rfl, by simp [runEffects, optionsSaveDir, exportCSV, noEffects], ?_⟩
  cases h : optionsSaveDir saveOpt <;> cases rows <;>
    simp [runEffects, exportCSV, h]

/-- A scripts.ini text holding the same UNC reference twice. -/
def scriptsIniDoubled : String :=
  "\\\\DC01\\SysVol\\corp.local\\scripts\\login.vbs\n\\\\DC01\\SysVol\\corp.local\\scripts\\login.vbs"

/-- Claim C7, settled as a code bug: `logon_scripts_enum.py` never imports
`re`, so on every reached scripts.ini file — the doubled-UNC text included —
the extraction site raises NameError and emits nothing, contradicting both
the claim and the module docstring (parse every scripts.ini below Policies
for referenced logon scripts).  The extraction the line would denote with
`re` bound does satisfy the claim: set semantics, no duplicates, exactly the
matched strings, and one deduplicated reference for the doubled text. -/
theorem gpo_extraction_raises_instead_of_emitting :
    enumGpoLine scriptsIniDoubled
      = Except.error "NameError: name re is not defined" ∧
    (∀ data : String, (gpoRefs data).Nodup ∧
      ∀ m, m ∈ gpoRefs data ↔ m ∈ pyFindallStr gpoPattern data) ∧
    gpoRefs scriptsIniDoubled = ["\\\\DC01\\SysVol\\corp.local"] :=
  ⟨rfl, fun data => ⟨List.nodup_dedup _, fun _ => List.mem_dedup⟩, by decide⟩

/-- Claim C8: since entries named exactly `.` or `..` are skipped in every
recursion frame, every `(share, relativePath)` pair the walker yields has no
`/`-separated path segment equal to `.` or `..`, for every tree whose entry
names are `/`-free (as SMB names are) and every walk root whose own segments
are clean. -/
theorem walker_paths_have_no_dot_segments (share path : String)
    (exts : List String) (listing : Listing)
    (hpath : noDotSegs path = true) (hsl : noSlashListing listing = true) :
    ∀ p ∈ iter_files share path exts listing, noDotSegs p.2 = true :=
  fun p hp => iterListing_noDot share exts path listing hpath hsl p hp

/-- Witness for C8 on the sample tree (which contains an entry named `.` and
one named `..`): every yielded path is clean. -/
theorem walker_paths_have_no_dot_segments_witness :
    noDotSegs "corp/scripts" = true ∧ noSlashListing egTree = true ∧
    ∀ p ∈ iter_files "SYSVOL" "corp/scripts" [".bat", ".ps1"] egTree,
      noDotSegs p.2 = true :=
  ⟨by decide, by decide,
   walker_paths_have_no_dot_segments "SYSVOL" "corp/scripts" [".bat", ".ps1"]
     egTree (by decide) (by decide)⟩

/-- Claim C9: for a file entry not named `.`/`..`, the walker yields it if
and only if the lower-cased last extension of its name (`Path(name).suffix`,
the suffix after the final dot) belongs to the selector set; a name with no
dot has the empty suffix, so whenever the selector contains no empty string
(as every selector of both modules), such a file is never yielded. -/
theorem extension_selection_is_suffix_based (share : String) (exts : List String)
    (path name : String) (beh : FileBeh) (h1 : name ≠ ".") (h2 : name ≠ "..") :
    (iterEntry share exts path (Entry.file name beh)
      = if lowerString (pySuffix name) ∈ exts then [(share, relPath path name)]
        else []) ∧
    ('.' ∉ name.data → "" ∉ exts →
      iterEntry share exts path (Entry.file name beh) = []) := by
  have h : ¬(name = "." ∨ name = "..") := by
    rintro (hh | hh)
    · exact h1 hh
    · exact h2 hh
  constructor
  · simp [iterEntry, h]
  · intro hdot hempty
    have hs : pySuffix name = "" := pySuffix_no_dot name hdot
    have hls : lowerString (pySuffix name) = "" := by rw [hs]; rfl
    simp [iterEntry, h, hls, hempty]

/-- Witness for C9: `Run.BAT` is selected by the `.bat` selector via its
lower-cased suffix, and a dot-free name is never selected. -/
theorem extension_selection_is_suffix_based_witness :
    (iterEntry "SYSVOL" [".bat"] "root" (Entry.file "Run.BAT" fbFail)
      = if lowerString (pySuffix "Run.BAT") ∈ [".bat"]
        then [("SYSVOL", relPath "root" "Run.BAT")] else []) ∧
    iterEntry "SYSVOL" [".bat"] "root" (Entry.file "noext" fbFail) = [] :=
  ⟨(extension_selection_is_suffix_based "SYSVOL" [".bat"] "root" "Run.BAT" fbFail
      (by decide) (by decide)).1,
   (extension_selection_is_suffix_based "SYSVOL" [".bat"] "root" "noext" fbFail
      (by decide) (by decide)).2 (by decide) (by decide)⟩

/-- Claim C10: the finding list of each module instance starts empty at
construction and is only appended to: one `on_login` run turns the state
`st` into `st` followed by the rows the run actually records, in discovery
order — nothing is removed or reordered — and a second run on the same
instance appends its rows after those of the first.  For
`logon_scripts_enum` this holds whether or not the run then raises the
NameError at the GPO extraction site: the raise happens after all of the run
recording (phase 2 records nothing before it), so the instance state is
`st ++ enumNewRows env` in either case. -/
theorem aggregator_is_append_only (st : List Finding) (env e1 e2 : SpiderEnv)
    (stR : List CsvRow) (envR f1 f2 : EnumEnv) :
    spiderInit = [] ∧
    spider_on_login st env = st ++ spiderNewFindings env ∧
    spider_on_login (spider_on_login spiderInit e1) e2
      = spiderNewFindings e1 ++ spiderNewFindings e2 ∧
    enumInit = [] ∧
    (enum_on_login stR envR).rows = stR ++ enumNewRows envR ∧
    (enum_on_login (enum_on_login enumInit f1).rows f2).rows
      = enumNewRows f1 ++ enumNewRows f2 := by
  refine ⟨rfl, foldl_reportStep _ _, ?_, rfl, foldl_recordStep _ _, ?_⟩
  · rw [spider_on_login, spider_on_login, foldl_reportStep, foldl_reportStep]
    simp [spiderInit]
  · show ((enumNewRows f2).foldl recordStep
        ((enumNewRows f1).foldl recordStep enumInit)) = _
    rw [foldl_recordStep, foldl_recordStep]
    simp [enumInit]
